import Mathlib

/-!
Verification development for the student management system.

The repository has two manager variants:
* `models/student.py` + `services/manager.py`: the persistent `StudentManager`
  over a JSON file, embedded here with the `m_` prefix (persistence success is
  an explicit boolean parameter `saveOk` standing for the result of
  `save_students`).
* `ui/app.py`: the in-memory `AdvancedStudentManager` with attendance and
  activity logs, embedded here with the `adv_` prefix.

Python strings are modelled as `String` / `List Char`; Python `int(...)` and
`float(...)` on strings are modelled by `pyIntChars` / `pyFloatChars`
(decimal forms; underscore grouping and exponent forms of the Python parsers
are not exercised by any statement below).  Machine floats are modelled by
`Rat`, with `np.corrcoef` represented symbolically so that its NaN behaviour
is explicit.
-/

namespace StudentMgmt

/-- Decimal value of an ASCII digit character, or `none`. -/
def charDigit (c : Char) : Option Nat :=
  if c.isDigit then some (c.toNat - 48) else none

/-- ASCII digit character for a decimal value below ten. -/
def digitChar (d : Nat) : Char :=
  Char.ofNat (48 + d)

/-- Characters stripped by Python str.strip() and matched by the regex class
for whitespace (space, tab, newline, carriage return, vertical tab, form feed). -/
def isPySpace (c : Char) : Bool :=
  c == ' ' || c == '\t' || c == '\n' || c == '\r' ||
    c == Char.ofNat 11 || c == Char.ofNat 12

/-- Models Python str.strip(): drop whitespace from both ends. -/
def trimSpaces (cs : List Char) : List Char :=
  ((cs.dropWhile isPySpace).reverse.dropWhile isPySpace).reverse

/-- All characters are ASCII decimal digits. -/
def allDigits (cs : List Char) : Bool :=
  cs.all (fun c => (charDigit c).isSome)

/-- Value of a big-endian digit string. -/
def digitsVal (cs : List Char) : Nat :=
  cs.foldl (fun a c => 10 * a + (charDigit c).getD 0) 0

/-- Parse a nonempty all-digit string as a natural number. -/
def parseNatChars (cs : List Char) : Option Nat :=
  if !cs.isEmpty && allDigits cs then some (digitsVal cs) else none

/-- Sign-and-digits parse of an already stripped string. -/
def pyIntSigned : List Char → Option Int
  | [] => none
  | c :: rest =>
    if c = '-' then (parseNatChars rest).map (fun n => -(n : Int))
    else if c = '+' then (parseNatChars rest).map (fun n => (n : Int))
    else (parseNatChars (c :: rest)).map (fun n => (n : Int))

/-- Models Python int(s) on a string: optional surrounding whitespace, an
optional sign, then decimal digits; anything else raises ValueError (`none`). -/
def pyIntChars (cs : List Char) : Option Int :=
  pyIntSigned (trimSpaces cs)

/-- Unsigned decimal literal: digits with an optional fractional part, at
least one digit overall. -/
def parseUnsignedFloat (cs : List Char) : Option Rat :=
  let intPart := cs.takeWhile (fun c => (charDigit c).isSome)
  let rest := cs.dropWhile (fun c => (charDigit c).isSome)
  match rest with
  | [] => if intPart.isEmpty then none else some ((digitsVal intPart : Nat) : Rat)
  | '.' :: frac =>
    if allDigits frac && !(intPart.isEmpty && frac.isEmpty) then
      some ((digitsVal intPart : Rat) + (digitsVal frac : Rat) / ((10 : Rat) ^ frac.length))
    else none
  | _ => none

/-- Models Python float(s) on decimal literals: optional whitespace, optional
sign, digits with optional fractional part. -/
def pyFloatChars (cs : List Char) : Option Rat :=
  match trimSpaces cs with
  | [] => none
  | c :: rest =>
    if c = '-' then (parseUnsignedFloat rest).map (fun q => -q)
    else if c = '+' then parseUnsignedFloat rest
    else parseUnsignedFloat (c :: rest)

/-- Big-endian decimal digits of n, with explicit fuel for structural
recursion; agrees with Nat.digits (see natToCharsAux_eq). -/
def natToCharsAux : Nat → Nat → List Char
  | 0, _ => []
  | fuel + 1, n => if n = 0 then [] else natToCharsAux fuel (n / 10) ++ [digitChar (n % 10)]

/-- Models Python str(n) for a natural number. -/
def natToChars (n : Nat) : List Char :=
  if n = 0 then ['0'] else natToCharsAux n n

/-- Left-pad with zero characters to the given width. -/
def padZeros (w : Nat) (cs : List Char) : List Char :=
  if cs.length < w then List.replicate (w - cs.length) '0' ++ cs else cs

/-- Models the Python format specifier 03d applied to an integer: total
width three, zero padded, the sign counted in the width. -/
def formatInt3 (n : Int) : List Char :=
  if n < 0 then '-' :: padZeros 2 (natToChars n.natAbs) else padZeros 3 (natToChars n.natAbs)

/-- Lexicographic order on code points; models Python string comparison. -/
def lexLe : List Char → List Char → Bool
  | [], _ => true
  | _ :: _, [] => false
  | a :: as1, b :: bs1 => if a = b then lexLe as1 bs1 else decide (a < b)

/-- Maximum of a list of integers, zero when empty (used only on nonempty
lists, where it models the Python builtin max). -/
def maxOfList : List Int → Int
  | [] => 0
  | n :: ns => ns.foldl max n

/-! Validator of models/student.py (used by the persistent manager and its
CSV import).  A record under validation is the dict shape produced by
csv.DictReader: every key present, every value a string; a missing cell is the
empty string. -/

/-- Field dict handed to StudentValidator.validate_student_data. -/
structure StudentData where
  student_id : String := ""
  name : String := ""
  age : String := ""
  grade : String := ""
  email : String := ""
  performance : String := ""
  phone : String := ""
  course : String := ""
  department : String := ""
  enrollment_date : String := ""
deriving DecidableEq, Repr

/-- Models StudentValidator.validate_name: stripped length at least two and
every character a letter or whitespace (source uses Python isalpha; letters
here are ASCII, which covers every string stated below). -/
def validate_name (name : String) : Bool :=
  decide (2 ≤ (trimSpaces name.toList).length) &&
    name.toList.all (fun c => c.isAlpha || isPySpace c)

/-- Models StudentValidator.validate_age. -/
def validate_age (age : Int) : Bool :=
  decide (15 ≤ age ∧ age ≤ 70)

/-- Models StudentValidator.validate_grade. -/
def validate_grade (grade : String) : Bool :=
  ["A", "B", "C", "D", "F"].contains grade

/-- Character class of the local part of the email regex. -/
def emailLocalChar (c : Char) : Bool :=
  c.isAlpha || c.isDigit || c == '.' || c == '_' || c == '%' || c == '+' || c == '-'

/-- Character class of the domain part of the email regex. -/
def emailDomainChar (c : Char) : Bool :=
  c.isAlpha || c.isDigit || c == '.' || c == '-'

/-- Models StudentValidator.validate_email, the anchored regex
local at domain dot tld with local over its class (nonempty), domain over its
class (nonempty), tld at least two letters.  Neither class contains the at
sign, so a match must split at the only at sign; the tld is all letters, so
the domain/tld split must be at the last dot.  These forced decompositions
make the following direct implementation equivalent to the regex. -/
def validate_email (email : String) : Bool :=
  let cs := email.toList
  let localPart := cs.takeWhile (fun c => c != '@')
  match cs.dropWhile (fun c => c != '@') with
  | '@' :: rest =>
    let revRest := rest.reverse
    let tld := (revRest.takeWhile (fun c => c != '.')).reverse
    (match revRest.dropWhile (fun c => c != '.') with
     | '.' :: domRev =>
       !localPart.isEmpty && localPart.all emailLocalChar &&
         !(rest.any (fun c => c == '@')) &&
         !domRev.isEmpty && domRev.all emailDomainChar &&
         decide (2 ≤ tld.length) && tld.all Char.isAlpha
     | _ => false)
  | _ => false

/-- Character class of the phone regex body. -/
def phoneChar (c : Char) : Bool :=
  c.isDigit || isPySpace c || c == '-' || c == '(' || c == ')'

/-- Models StudentValidator.validate_phone: empty is accepted; otherwise an
optional leading plus sign then at least ten characters of the class. -/
def validate_phone (phone : String) : Bool :=
  if phone.isEmpty then true
  else
    let body := match phone.toList with
      | '+' :: r => r
      | r => r
    decide (10 ≤ body.length) && body.all phoneChar

/-- Models StudentValidator.validate_performance. -/
def validate_performance (p : Rat) : Bool :=
  decide (0 ≤ p ∧ p ≤ 100)

/-- Models StudentValidator.validate_student_data: each field check appends
its message; the checks run unconditionally in source order. -/
def validate_student_data (d : StudentData) : List String :=
  let e1 := if validate_name d.name then []
    else ["Full name must be at least 2 characters long and contain only letters and spaces"]
  let e2 := match pyIntChars d.age.toList with
    | some a => if validate_age a then [] else ["Age must be between 15 and 70 years"]
    | none => ["Age must be a valid number"]
  let e3 := if validate_grade d.grade then [] else ["Grade must be one of: A, B, C, D, F"]
  let e4 := if validate_email d.email then [] else ["Please enter a valid email address format"]
  let e5 := match pyFloatChars d.performance.toList with
    | some p => if validate_performance p then []
      else ["Performance percentage must be between 0 and 100"]
    | none => ["Performance must be a valid number"]
  let e6 := if d.phone.isEmpty || validate_phone d.phone then []
    else ["Please enter a valid phone number format"]
  let e7 := if !d.course.isEmpty && decide (2 ≤ (trimSpaces d.course.toList).length) then []
    else ["Course name must be at least 2 characters long"]
  e1 ++ e2 ++ e3 ++ e4 ++ e5 ++ e6 ++ e7

/-! Persistent manager (services/manager.py).  The outcome of save_students
is the explicit parameter saveOk; datetime.now values are the explicit
parameters today / now. -/

/-- Student entity of models/student.py.  In the CSV import path the source
keeps the raw row strings in the numeric slots; here age and performance hold
the parsed numbers that every numeric consumer of the entity reads (rows
reaching the constructor through the import have passed validation, so the
parses succeed). -/
structure MStudent where
  student_id : String
  name : String
  age : Int
  grade : String
  email : String
  performance : Rat
  phone : String
  course : String
  department : String
  enrollment_date : String
  last_updated : String
deriving DecidableEq, Repr

/-- Models Student.from_dict followed by the Student constructor: a falsy
(empty) enrollment date falls back to today; last_updated is set to now. -/
def mStudentFromDict (today now : String) (d : StudentData) : MStudent :=
  { student_id := d.student_id
    name := d.name
    age := (pyIntChars d.age.toList).getD 0
    grade := d.grade
    email := d.email
    performance := (pyFloatChars d.performance.toList).getD 0
    phone := d.phone
    course := d.course
    department := d.department
    enrollment_date := if d.enrollment_date.isEmpty then today else d.enrollment_date
    last_updated := now }

/-- Models StudentManager.add_student; on save failure the source pops the
appended record, so the net store is the pre-call store. -/
def m_add_student (students : List MStudent) (saveOk : Bool) (s : MStudent) :
    Bool × String × List MStudent :=
  if students.any (fun t => t.student_id == s.student_id) then
    (false, "Student ID already exists", students)
  else if saveOk then (true, "Student added successfully", students ++ [s])
  else (false, "Failed to save student data", students)

/-- Models setattr(student, key, value) guarded by hasattr: a recognised
attribute name is overwritten, any other name is silently skipped.  The
numeric attributes age and performance take non-string values in the source
and are not exercised by any statement below, so they fall through unchanged
here as well. -/
def applyKwarg (s : MStudent) (kv : String × String) : MStudent :=
  match kv.1 with
  | "student_id" => { s with student_id := kv.2 }
  | "name" => { s with name := kv.2 }
  | "grade" => { s with grade := kv.2 }
  | "email" => { s with email := kv.2 }
  | "phone" => { s with phone := kv.2 }
  | "course" => { s with course := kv.2 }
  | "department" => { s with department := kv.2 }
  | "enrollment_date" => { s with enrollment_date := kv.2 }
  | "last_updated" => { s with last_updated := kv.2 }
  | _ => s

/-- Models StudentManager.update_student: the first record with the id has
the keyword arguments applied and last_updated refreshed; the mutation stays
in memory even when the save fails (the source does not roll it back). -/
def m_update_student (students : List MStudent) (saveOk : Bool) (sid : String)
    (kwargs : List (String × String)) (now : String) : Bool × String × List MStudent :=
  match students with
  | [] => (false, "Student not found", [])
  | s :: rest =>
    if s.student_id == sid then
      let s2 := { kwargs.foldl applyKwarg s with last_updated := now }
      if saveOk then (true, "Student updated successfully", s2 :: rest)
      else (false, "Failed to save updated data", s2 :: rest)
    else
      let r := m_update_student rest saveOk sid kwargs now
      (r.1, r.2.1, s :: r.2.2)

/-- Models StudentManager.delete_student: the first record with the id is
removed; the removal stays in memory even when the save fails. -/
def m_delete_student (students : List MStudent) (saveOk : Bool) (sid : String) :
    Bool × String × List MStudent :=
  match students with
  | [] => (false, "Student not found", [])
  | s :: rest =>
    if s.student_id == sid then
      if saveOk then (true, "Student deleted successfully", rest)
      else (false, "Failed to save after deletion", rest)
    else
      let r := m_delete_student rest saveOk sid
      (r.1, r.2.1, s :: r.2.2)

/-- Models StudentManager.bulk_delete_students; the filtered store stays in
memory even when the save fails. -/
def m_bulk_delete_students (students : List MStudent) (saveOk : Bool) (ids : List String) :
    Bool × String × List MStudent :=
  let remaining := students.filter (fun s => !(ids.contains s.student_id))
  let deleted := students.length - remaining.length
  if saveOk then (true, "Successfully deleted " ++ toString deleted ++ " students", remaining)
  else (false, "Failed to save after bulk deletion", remaining)

/-- Models StudentManager.get_next_student_id: on an empty store STU001;
otherwise one more than the maximum of the suffixes from index three that
parse as integers (unparseable ids are skipped), rendered with the 03d
format. -/
def m_get_next_student_id (students : List MStudent) : String :=
  match students with
  | [] => "STU001"
  | _ =>
    let numbers := students.filterMap (fun s => pyIntChars (s.student_id.toList.drop 3))
    let next := if numbers.isEmpty then (1 : Int) else maxOfList numbers + 1
    String.mk ('S' :: 'T' :: 'U' :: formatInt3 next)

/-- One step of the row loop of StudentManager.import_from_csv: the state is
(store, imported count, error list); the index is the value produced by
enumerate(reader, 2).  An invalid row appends a numbered error entry; a valid
row is appended and counted unless its id is already in the store. -/
def m_import_step (today now : String) (st : List MStudent × Nat × List String)
    (ir : Nat × StudentData) : List MStudent × Nat × List String :=
  let ve := validate_student_data ir.2
  if !ve.isEmpty then
    (st.1, st.2.1, st.2.2 ++ ["Row " ++ toString ir.1 ++ ": " ++ String.intercalate ", " ve])
  else
    let s := mStudentFromDict today now ir.2
    if st.1.any (fun t => t.student_id == s.student_id) then st
    else (st.1 ++ [s], st.2.1 + 1, st.2.2)

/-- Result shape of StudentManager.import_from_csv. -/
structure MImportResult where
  ok : Bool
  msg : String
  errors : List String
  store : List MStudent
deriving DecidableEq, Repr

/-- Numbered rows as produced by enumerate(reader, 2). -/
def enumFromTwo (rows : List StudentData) : List (Nat × StudentData) :=
  List.enumFrom 2 rows

/-- Models StudentManager.import_from_csv over the parsed data rows of the
file; the appended records stay in memory even when the final save fails. -/
def m_import_from_csv (today now : String) (students : List MStudent) (saveOk : Bool)
    (rows : List StudentData) : MImportResult :=
  let r := (enumFromTwo rows).foldl (m_import_step today now) (students, 0, [])
  if saveOk then
    { ok := true
      msg := "Successfully imported " ++ toString r.2.1 ++ " students" ++
        (if r.2.2.isEmpty then "" else ". " ++ toString r.2.2.length ++ " rows had errors")
      errors := r.2.2
      store := r.1 }
  else { ok := false, msg := "Failed to save imported data", errors := r.2.2, store := r.1 }

/-- The fixed CSV column order: the key order of Student.to_dict. -/
def exportHeader : List String :=
  ["student_id", "name", "age", "grade", "email", "performance", "phone", "course",
   "department", "enrollment_date", "last_updated"]

/-- CSV cells of one record, in header order. -/
def mStudentRow (s : MStudent) : List String :=
  [s.student_id, s.name, toString s.age, s.grade, s.email, toString s.performance,
   s.phone, s.course, s.department, s.enrollment_date, s.last_updated]

/-- Models StudentManager.export_to_csv, the written file represented as its
list of lines (each line its list of cells): the source writes the header and
the rows only under an emptiness test on the store, so an empty store writes
nothing at all. -/
def m_export_to_csv (students : List MStudent) : Bool × String × List (List String) :=
  let lines := match students with
    | [] => []
    | _ => exportHeader :: students.map mStudentRow
  (true, "Data exported successfully to data/students_export.csv", lines)

/-- Models csv.DictReader over the lines of a file whose header is the export
header: the first line is consumed as the header, each remaining line becomes
a row dict by position.  A file with no lines yields no rows. -/
def dictReaderRows (lines : List (List String)) : List StudentData :=
  match lines with
  | [] => []
  | _ :: rows => rows.map (fun r =>
      { student_id := r.getD 0 "", name := r.getD 1 "", age := r.getD 2 "",
        grade := r.getD 3 "", email := r.getD 4 "", performance := r.getD 5 "",
        phone := r.getD 6 "", course := r.getD 7 "", department := r.getD 8 "",
        enrollment_date := r.getD 9 "" })

/-- Arithmetic mean as computed by sum(...) / len(...). -/
def mean (l : List Rat) : Rat :=
  l.sum / (l.length : Rat)

/-- Models the performance trend block of StudentManager.get_statistics
(lines 181 to 184): the records with enrollment_date at or after the cutoff
string (the source formats now minus thirty days; the cutoff is the explicit
parameter) are the recent set; when it is nonempty the singleton trend list
compares its mean performance with the overall mean performance. -/
def m_performance_trend (students : List MStudent) (cutoff : String) : List String :=
  let avg := mean (students.map (fun s => s.performance))
  let recent := students.filter (fun s => lexLe cutoff.toList s.enrollment_date.toList)
  if recent.isEmpty then []
  else
    let ravg := mean (recent.map (fun s => s.performance))
    [if decide (avg < ravg) then "improving"
     else if decide (ravg < avg) then "declining" else "stable"]

/-! In-memory manager (ui/app.py).  The statistics cache and the activity
log are not read by any claim and are omitted from the record. -/

/-- Student entity of ui/app.py (the variant with attendance). -/
structure AStudent where
  student_id : String
  name : String
  age : Int
  grade : String
  email : String
  performance : Rat
  phone : String
  course : String
  department : String
  enrollment_date : String
  attendance : Rat
  last_updated : String
deriving DecidableEq, Repr

/-- Typed field dict handed to the validator of ui/app.py (built by the row
loop of the import from the pandas row, so the numeric fields are numbers). -/
structure AData where
  name : String
  age : Int
  grade : String
  email : String
  performance : Rat
  phone : String
  course : String
  department : String
  attendance : Rat
deriving DecidableEq, Repr

/-- Models StudentValidator.validate_student_data of ui/app.py.  Python
truthiness of the numeric fields is the comparison with zero, so a zero age
or a zero performance trips the falsy branch of its check. -/
def adv_validate_student_data (d : AData) : List String :=
  let e1 := if d.name.isEmpty || decide ((trimSpaces d.name.toList).length < 2) then
    ["Name must be at least 2 characters long"] else []
  let e2 := if d.age == 0 || decide (d.age < 15) || decide (70 < d.age) then
    ["Age must be between 15 and 70"] else []
  let e3 := if d.email.isEmpty || !(d.email.toList.any (fun c => c == '@')) then
    ["Valid email address is required"] else []
  let e4 := if d.performance == 0 || decide (d.performance < 0) || decide ((100 : Rat) < d.performance) then
    ["Academic MentorDesk score must be between 0 and 100"] else []
  let e5 := if d.course.isEmpty || decide ((trimSpaces d.course.toList).length < 2) then
    ["Course must be at least 2 characters long"] else []
  let e6 := if !(d.attendance == 0) && (decide (d.attendance < 0) || decide ((100 : Rat) < d.attendance)) then
    ["Attendance must be between 0 and 100"] else []
  e1 ++ e2 ++ e3 ++ e4 ++ e5 ++ e6

/-- CSV row of the in-memory import, after pandas parsing: a missing column
is none.  row.get defaults are applied by rowToAData. -/
structure ARow where
  name : Option String := none
  age : Option Int := none
  grade : Option String := none
  email : Option String := none
  performance : Option Rat := none
  phone : Option String := none
  course : Option String := none
  department : Option String := none
  attendance : Option Rat := none
deriving DecidableEq, Repr

/-- The student_data dict built by AdvancedStudentManager.import_from_csv
from one row, with the row.get defaults of the source. -/
def rowToAData (r : ARow) : AData :=
  { name := r.name.getD ""
    age := r.age.getD 18
    grade := r.grade.getD "B"
    email := r.email.getD ""
    performance := r.performance.getD 75
    phone := r.phone.getD ""
    course := r.course.getD ""
    department := r.department.getD "General"
    attendance := r.attendance.getD 95 }

/-- Models AdvancedStudentManager.get_next_student_id: ST001 on an empty
store, otherwise one more than the maximum suffix from index two.  There is
no exception guard here in the source, so an unparseable id raises; `none`
stands for that raise. -/
def adv_get_next_student_id (students : List AStudent) : Option String :=
  match students with
  | [] => some "ST001"
  | _ =>
    (students.mapM (fun t => pyIntChars (t.student_id.toList.drop 2))).map
      (fun l => String.mk ('S' :: 'T' :: formatInt3 (maxOfList l + 1)))

/-- New entity built by the import loop for an accepted row. -/
def mkAStudent (sid : String) (d : AData) (today now : String) : AStudent :=
  { student_id := sid, name := d.name, age := d.age, grade := d.grade, email := d.email,
    performance := d.performance, phone := d.phone, course := d.course,
    department := d.department, enrollment_date := today, attendance := d.attendance,
    last_updated := now }

/-- One step of the row loop of AdvancedStudentManager.import_from_csv over
the state (store, imported count, error list); the index is the 0-based
pandas row index, so messages carry index plus one.  An id generation raise
is caught by the per-row except and recorded as a processing error. -/
def adv_import_step (today now : String) (st : List AStudent × Nat × List String)
    (ir : Nat × ARow) : List AStudent × Nat × List String :=
  let d := rowToAData ir.2
  let ve := adv_validate_student_data d
  if !ve.isEmpty then
    (st.1, st.2.1, st.2.2 ++ ["Row " ++ toString (ir.1 + 1) ++ ": " ++ String.intercalate ", " ve])
  else
    match adv_get_next_student_id st.1 with
    | none =>
      (st.1, st.2.1, st.2.2 ++ ["Row " ++ toString (ir.1 + 1) ++ ": Error processing - invalid literal"])
    | some sid => (st.1 ++ [mkAStudent sid d today now], st.2.1 + 1, st.2.2)

/-- Result shape of AdvancedStudentManager.import_from_csv. -/
structure AdvImportResult where
  ok : Bool
  msg : String
  errors : List String
  store : List AStudent
deriving DecidableEq, Repr

/-- Models AdvancedStudentManager.import_from_csv over the parsed rows: the
flag is true whenever the CSV itself parsed, regardless of row errors. -/
def adv_import_from_csv (today now : String) (students : List AStudent)
    (rows : List ARow) : AdvImportResult :=
  let r := (List.enum rows).foldl (adv_import_step today now) (students, 0, [])
  { ok := true
    msg := "Successfully imported " ++ toString r.2.1 ++ " students"
    errors := r.2.2
    store := r.1 }

/-- Models AdvancedStudentManager.add_student: an unconditional append (there
is no duplicate check in the source; the try body cannot raise). -/
def adv_add_student (students : List AStudent) (s : AStudent) :
    Bool × String × List AStudent :=
  (true, "Student added successfully", students ++ [s])

/-- Models the performance trend block of
AdvancedStudentManager.get_statistics (lines 254 to 260): the last element of
the performance list is compared with the first. -/
def adv_performance_trend (students : List AStudent) : String :=
  let ps := students.map (fun s => s.performance)
  match ps with
  | p0 :: p1 :: rest =>
    let plast := (p1 :: rest).getLastD p0
    if decide (p0 < plast) then "Improving"
    else if decide (plast < p0) then "Declining" else "Stable"
  | _ => "Stable"

/-- Entries centred on the mean. -/
def centered (l : List Rat) : List Rat :=
  l.map (fun x => x - mean l)

/-- Sum of squares. -/
def sqSum (l : List Rat) : Rat :=
  (l.map (fun x => x * x)).sum

/-- Pointwise product sum of two vectors. -/
def dotSum (a b : List Rat) : Rat :=
  ((a.zip b).map (fun p => p.1 * p.2)).sum

/-- Symbolic value of the float np.corrcoef(xs, ys)[0, 1]: the coefficient is
cov / sqrt(varX * varY) over the centred vectors; numpy divides even when a
variance is zero, producing NaN, recorded here in the isNaN flag. -/
structure NpCorr where
  isNaN : Bool
  cov : Rat
  varX : Rat
  varY : Rat
deriving DecidableEq, Repr

/-- Models np.corrcoef(xs, ys)[0, 1]. -/
def np_corrcoef_01 (xs ys : List Rat) : NpCorr :=
  let cx := centered xs
  let cy := centered ys
  { isNaN := (sqSum cx == 0) || (sqSum cy == 0)
    cov := dotSum cx cy
    varX := sqSum cx
    varY := sqSum cy }

/-- Models the correlation entry of
AdvancedStudentManager.get_performance_analysis: np.corrcoef over the
performance and attendance vectors when more than one record exists, the
Python int zero otherwise (represented as the non-NaN value 0/1). -/
def adv_correlation (students : List AStudent) : NpCorr :=
  let ps := students.map (fun s => s.performance)
  let atts := students.map (fun s => s.attendance)
  if decide (1 < ps.length) then np_corrcoef_01 ps atts
  else { isNaN := false, cov := 0, varX := 1, varY := 1 }

/-! Claim-side definitions, written from the words of the spec and claims,
to be compared against the source-side definitions above. -/

/-- The three trend outcomes the spec names. -/
inductive TrendSig
  | improving
  | declining
  | stable
deriving DecidableEq, Repr

/-- Modelled from the claim wording of C7: compare the mean performance of
the records enrolled within the last thirty days (enrollment date at or after
the cutoff) against the mean performance of all records; greater means
improving, smaller declining, equal stable.  A record is the pair of its
performance and its enrollment date. -/
def claim_trend (recs : List (Rat × String)) (cutoff : String) : TrendSig :=
  let overall := mean (recs.map (fun r => r.1))
  let recent := recs.filter (fun r => lexLe cutoff.toList r.2.toList)
  let rmean := mean (recent.map (fun r => r.1))
  if overall < rmean then .improving
  else if rmean < overall then .declining else .stable

/-- Lowercase rendering of a trend outcome, as the persistent manager prints
it. -/
def trendWord : TrendSig → String
  | .improving => "improving"
  | .declining => "declining"
  | .stable => "stable"

/-- Capitalised rendering of a trend outcome, as the in-memory manager
prints it. -/
def advTrendWord : TrendSig → String
  | .improving => "Improving"
  | .declining => "Declining"
  | .stable => "Stable"

/-- Modelled from the claim wording of C10: walking the batch with the set of
ids already taken (by the existing store or by rows accepted earlier in the
batch), an invalid row is dropped, a valid row with a taken id is silently
skipped, and any other valid row is accepted and its id becomes taken. -/
def c10_acceptedRows (ids : List String) : List StudentData → List StudentData
  | [] => []
  | row :: rest =>
    if (validate_student_data row).isEmpty && !(ids.contains row.student_id) then
      row :: c10_acceptedRows (ids ++ [row.student_id]) rest
    else c10_acceptedRows ids rest

/-- The error entry text of the persistent import for an invalid row. -/
def mRowErrorEntry (i : Nat) (row : StudentData) : String :=
  "Row " ++ toString i ++ ": " ++ String.intercalate ", " (validate_student_data row)

/-- The error entry text of the in-memory import for an invalid row at
0-based index i. -/
def advRowErrorEntry (i : Nat) (r : ARow) : String :=
  "Row " ++ toString (i + 1) ++ ": " ++
    String.intercalate ", " (adv_validate_student_data (rowToAData r))

/-- A row of the in-memory import is valid when its converted field dict
passes the validator. -/
def advRowValid (r : ARow) : Bool :=
  (adv_validate_student_data (rowToAData r)).isEmpty

/-- Modelled from the claim wording of C10 and C5: the error entries of a
batch are exactly one numbered entry per invalid row (carrying that row's
number and its reasons), and no entry for any other row.  Persistent-manager
numbering: the first data row is row 2 (the header is row 1). -/
def c10_rowErrors (i : Nat) : List StudentData → List String
  | [] => []
  | row :: rest =>
    if (validate_student_data row).isEmpty then c10_rowErrors (i + 1) rest
    else mRowErrorEntry i row :: c10_rowErrors (i + 1) rest

/-- Modelled from the claim wording of C5, for the in-memory import: one
numbered error entry per invalid row (i is the 0-based pandas index; the
entry text carries i plus one), no entry for a valid row. -/
def c5_rowErrors (i : Nat) : List ARow → List String
  | [] => []
  | row :: rest =>
    if advRowValid row then c5_rowErrors (i + 1) rest
    else advRowErrorEntry i row :: c5_rowErrors (i + 1) rest

/-- The field rules of the validator of models/student.py, one constructor
per distinct message (the two numeric fields each have a range rule and a
parse rule). -/
inductive VField
  | nameF
  | ageRange
  | ageParse
  | gradeF
  | emailF
  | perfRange
  | perfParse
  | phoneF
  | courseF
deriving DecidableEq, Repr

/-- The rules in the order the validator evaluates them. -/
def vfields : List VField :=
  [.nameF, .ageRange, .ageParse, .gradeF, .emailF, .perfRange, .perfParse, .phoneF, .courseF]

/-- The message of each rule. -/
def vmsg : VField → String
  | .nameF => "Full name must be at least 2 characters long and contain only letters and spaces"
  | .ageRange => "Age must be between 15 and 70 years"
  | .ageParse => "Age must be a valid number"
  | .gradeF => "Grade must be one of: A, B, C, D, F"
  | .emailF => "Please enter a valid email address format"
  | .perfRange => "Performance percentage must be between 0 and 100"
  | .perfParse => "Performance must be a valid number"
  | .phoneF => "Please enter a valid phone number format"
  | .courseF => "Course name must be at least 2 characters long"

/-- Whether a record violates a rule; each rule reads a single field. -/
def violates (f : VField) (d : StudentData) : Bool :=
  match f with
  | .nameF => !validate_name d.name
  | .ageRange =>
    match pyIntChars d.age.toList with
    | some a => !validate_age a
    | none => false
  | .ageParse => (pyIntChars d.age.toList).isNone
  | .gradeF => !validate_grade d.grade
  | .emailF => !validate_email d.email
  | .perfRange =>
    match pyFloatChars d.performance.toList with
    | some p => !validate_performance p
    | none => false
  | .perfParse => (pyFloatChars d.performance.toList).isNone
  | .phoneF => !d.phone.isEmpty && !validate_phone d.phone
  | .courseF => d.course.isEmpty || decide ((trimSpaces d.course.toList).length < 2)

/-- The single field a rule reads. -/
def fieldProj (f : VField) (d : StudentData) : String :=
  match f with
  | .nameF => d.name
  | .ageRange => d.age
  | .ageParse => d.age
  | .gradeF => d.grade
  | .emailF => d.email
  | .perfRange => d.performance
  | .perfParse => d.performance
  | .phoneF => d.phone
  | .courseF => d.course

/-! Concrete records used by the closed statements below. -/

/-- A well-formed record of the persistent store. -/
def s001 : MStudent :=
  { student_id := "STU001", name := "Alice Smith", age := 20, grade := "A",
    email := "alice@uni.edu", performance := 92, phone := "", course := "Math",
    department := "Science", enrollment_date := "2026-01-01",
    last_updated := "2026-01-01 10:00:00" }

/-- A second well-formed record of the persistent store. -/
def s002 : MStudent :=
  { s001 with student_id := "STU002", name := "Bob Stone" }

/-- A well-formed record of the in-memory store. -/
def a001 : AStudent :=
  { student_id := "ST001", name := "Aarav Sharma", age := 20, grade := "A",
    email := "aarav@uni.edu", performance := 80, phone := "+91 9876543210",
    course := "Computer Science", department := "Engineering",
    enrollment_date := "2026-10-01", attendance := 90,
    last_updated := "2026-10-01 10:00:00" }

/-- A second in-memory record with the same performance and a different
attendance (so the performance vector of the pair has zero variance while
the attendance vector does not). -/
def a002 : AStudent :=
  { a001 with student_id := "ST002", name := "Priya Patel", attendance := 50 }

/-- Trend counterexample record: performance 50, enrolled on the reference
day itself. -/
def t1 : AStudent :=
  { a001 with performance := 50, enrollment_date := "2026-10-12" }

/-- Trend counterexample record: performance 100, enrolled on the reference
day itself. -/
def t2 : AStudent :=
  { a002 with performance := 100, enrollment_date := "2026-10-12" }

/-- A CSV row that passes every rule of the in-memory validator. -/
def r1 : ARow :=
  { name := some "Alice Smith", age := some 20, grade := some "A",
    email := some "alice@uni.edu", performance := some 85, phone := some "1234567890",
    course := some "Math", department := some "Science", attendance := some 90 }

/-- The same row with age 12, which violates the age rule and nothing else. -/
def r2 : ARow :=
  { r1 with name := some "Bob Stone", age := some 12 }

/-- A third valid row. -/
def r3 : ARow :=
  { r1 with name := some "Cara Vale", age := some 22 }

/-- A field dict that satisfies every rule of the persistent validator (the
performance string is integral so that every statement about it evaluates by
kernel reduction). -/
def dGood : StudentData :=
  { student_id := "STU001", name := "Alice Smith", age := "20", grade := "A",
    email := "alice@uni.edu", performance := "85", phone := "", course := "Math",
    department := "Science", enrollment_date := "2026-01-01" }

/-- dGood with exactly three corrupted fields: age out of range, email not
matching the pattern, course too short. -/
def dBad : StudentData :=
  { dGood with age := "12", email := "nope", course := "X" }

/-- dBad with a different name, used to instantiate the independence part of
the validator theorem: the two records agree on the email field. -/
def dBad2 : StudentData :=
  { dBad with name := "Someone Else" }

/-! Digit and parser lemmas: Python int() round-trips the 03d format.  These
drive the freshness theorems about the generated student ids. -/

theorem charDigit_digitChar (d : Nat) (h : d < 10) : charDigit (digitChar d) = some d := by
  interval_cases d <;> decide

theorem allDigits_iff (cs : List Char) :
    allDigits cs = true ↔ ∀ c ∈ cs, (charDigit c).isSome := by
  simp [allDigits, List.all_eq_true]

theorem isPySpace_of_space (c : Char) (h : isPySpace c = true) : charDigit c = none := by
  simp only [isPySpace, Bool.or_eq_true, beq_iff_eq] at h
  rcases h with ((((h | h) | h) | h) | h) | h <;> subst h <;> decide

theorem digit_not_space (c : Char) (h : (charDigit c).isSome = true) : isPySpace c = false := by
  cases hs : isPySpace c
  · rfl
  · rw [isPySpace_of_space c hs] at h
    simp at h

theorem dropWhile_all_neg (p : Char → Bool) (cs : List Char)
    (h : ∀ c ∈ cs, p c = false) : cs.dropWhile p = cs := by
  cases cs with
  | nil => rfl
  | cons c t => simp [List.dropWhile_cons, h c (List.mem_cons_self c t)]

theorem trimSpaces_eq_self (cs : List Char) (h : ∀ c ∈ cs, isPySpace c = false) :
    trimSpaces cs = cs := by
  unfold trimSpaces
  rw [dropWhile_all_neg _ _ h]
  rw [dropWhile_all_neg]
  · exact List.reverse_reverse cs
  · intro c hc
    exact h c (List.mem_reverse.mp hc)

theorem foldl_digits_val (L : List Nat) (a : Nat) (h : ∀ d ∈ L, d < 10) :
    ((L.reverse.map digitChar).foldl (fun x c => 10 * x + (charDigit c).getD 0) a)
      = a * 10 ^ L.length + Nat.ofDigits 10 L := by
  induction L generalizing a with
  | nil => simp [Nat.ofDigits]
  | cons d t ih =>
    have hd : d < 10 := h d (List.mem_cons_self d t)
    have ht : ∀ d ∈ t, d < 10 := fun x hx => h x (List.mem_cons_of_mem d hx)
    simp only [List.reverse_cons, List.map_append, List.map_cons, List.map_nil,
      List.foldl_append, List.foldl_cons, List.foldl_nil]
    rw [ih a ht, charDigit_digitChar d hd]
    simp only [Option.getD_some, Nat.ofDigits_cons, List.length_cons]
    ring

theorem digitsVal_eq_ofDigits (L : List Nat) (h : ∀ d ∈ L, d < 10) :
    digitsVal (L.reverse.map digitChar) = Nat.ofDigits 10 L := by
  unfold digitsVal
  rw [foldl_digits_val L 0 h]
  simp

theorem natToCharsAux_eq (fuel n : Nat) (h : n ≤ fuel) :
    natToCharsAux fuel n = (Nat.digits 10 n).reverse.map digitChar := by
  induction fuel generalizing n with
  | zero =>
    interval_cases n
    simp [natToCharsAux]
  | succ f ih =>
    by_cases hn : n = 0
    · subst hn; simp [natToCharsAux]
    · have h10 : n / 10 ≤ f := by
        have := Nat.div_lt_self (Nat.pos_of_ne_zero hn) (by norm_num : 1 < 10)
        omega
      rw [natToCharsAux, if_neg hn, ih _ h10,
        Nat.digits_def' (by norm_num : 1 < 10) (Nat.pos_of_ne_zero hn)]
      simp

theorem natToChars_eq (n : Nat) (hn : n ≠ 0) :
    natToChars n = (Nat.digits 10 n).reverse.map digitChar := by
  rw [natToChars, if_neg hn, natToCharsAux_eq n n le_rfl]

theorem natToChars_ne_nil (n : Nat) : natToChars n ≠ [] := by
  by_cases hn : n = 0
  · subst hn; simp [natToChars]
  · rw [natToChars_eq n hn]
    simp [Nat.digits_ne_nil_iff_ne_zero.mpr hn]

theorem natToChars_allDigits (n : Nat) : allDigits (natToChars n) = true := by
  rw [allDigits_iff]
  by_cases hn : n = 0
  · subst hn; intro c hc; simp [natToChars] at hc; subst hc; rfl
  · rw [natToChars_eq n hn]
    intro c hc
    simp only [List.mem_map, List.mem_reverse] at hc
    obtain ⟨d, hd, rfl⟩ := hc
    rw [charDigit_digitChar d (Nat.digits_lt_base (by norm_num) hd)]
    rfl

theorem digitsVal_natToChars (n : Nat) : digitsVal (natToChars n) = n := by
  by_cases hn : n = 0
  · subst hn; rfl
  · rw [natToChars_eq n hn,
      digitsVal_eq_ofDigits _ (fun d hd => Nat.digits_lt_base (by norm_num) hd),
      Nat.ofDigits_digits]

theorem parseNatChars_eq_of (cs : List Char) (h1 : cs ≠ []) (h2 : allDigits cs = true) :
    parseNatChars cs = some (digitsVal cs) := by
  have he : cs.isEmpty = false := by
    cases cs with
    | nil => exact absurd rfl h1
    | cons c t => rfl
  simp [parseNatChars, he, h2]

theorem parseNatChars_natToChars (n : Nat) : parseNatChars (natToChars n) = some n := by
  rw [parseNatChars_eq_of _ (natToChars_ne_nil n) (natToChars_allDigits n),
    digitsVal_natToChars]

theorem digitsVal_zeros_prefix (k : Nat) (cs : List Char) :
    digitsVal (List.replicate k '0' ++ cs) = digitsVal cs := by
  induction k with
  | zero => rfl
  | succ m ih => simpa [digitsVal, List.replicate_succ] using ih

theorem padZeros_allDigits (w : Nat) (cs : List Char) (h : allDigits cs = true) :
    allDigits (padZeros w cs) = true := by
  unfold padZeros
  split
  · rw [allDigits_iff] at h ⊢
    intro c hc
    rcases List.mem_append.mp hc with hc | hc
    · rw [List.eq_of_mem_replicate hc]; rfl
    · exact h c hc
  · exact h

theorem padZeros_ne_nil (w : Nat) (cs : List Char) (h : cs ≠ []) : padZeros w cs ≠ [] := by
  unfold padZeros
  split
  · intro hr
    exact h (List.append_eq_nil.mp hr).2
  · exact h

theorem digitsVal_padZeros (w : Nat) (cs : List Char) :
    digitsVal (padZeros w cs) = digitsVal cs := by
  unfold padZeros
  split
  · exact digitsVal_zeros_prefix _ _
  · rfl

theorem parseNatChars_padZeros (w : Nat) (cs : List Char)
    (h1 : cs ≠ []) (h2 : allDigits cs = true) :
    parseNatChars (padZeros w cs) = some (digitsVal cs) := by
  rw [parseNatChars_eq_of _ (padZeros_ne_nil w cs h1) (padZeros_allDigits w cs h2),
    digitsVal_padZeros]

theorem pyIntChars_formatInt3 (n : Int) : pyIntChars (formatInt3 n) = some n := by
  by_cases hn : n < 0
  · have hdig : allDigits (padZeros 2 (natToChars n.natAbs)) = true :=
      padZeros_allDigits 2 _ (natToChars_allDigits _)
    have hform : formatInt3 n = '-' :: padZeros 2 (natToChars n.natAbs) := by
      rw [formatInt3, if_pos hn]
    have htrim : trimSpaces (formatInt3 n) = formatInt3 n := by
      apply trimSpaces_eq_self
      intro c hc
      rw [hform] at hc
      rcases List.mem_cons.mp hc with rfl | hc
      · rfl
      · exact digit_not_space c ((allDigits_iff _).mp hdig c hc)
    rw [pyIntChars, htrim, hform, pyIntSigned, if_pos rfl,
      parseNatChars_padZeros 2 _ (natToChars_ne_nil _) (natToChars_allDigits _),
      digitsVal_natToChars]
    have hval : -((n.natAbs : Nat) : Int) = n := by omega
    simp [hval, abs_of_neg hn]
  · have hdig : allDigits (padZeros 3 (natToChars n.natAbs)) = true :=
      padZeros_allDigits 3 _ (natToChars_allDigits _)
    have hnn : padZeros 3 (natToChars n.natAbs) ≠ [] :=
      padZeros_ne_nil 3 _ (natToChars_ne_nil _)
    have hform : formatInt3 n = padZeros 3 (natToChars n.natAbs) := by
      rw [formatInt3, if_neg hn]
    have htrim : trimSpaces (formatInt3 n) = formatInt3 n := by
      apply trimSpaces_eq_self
      intro c hc
      rw [hform] at hc
      exact digit_not_space c ((allDigits_iff _).mp hdig c hc)
    rw [pyIntChars, htrim, hform]
    cases hp : padZeros 3 (natToChars n.natAbs) with
    | nil => exact absurd hp hnn
    | cons c rest =>
      have hcdig : (charDigit c).isSome = true :=
        (allDigits_iff _).mp hdig c (by rw [hp]; exact List.mem_cons_self c rest)
      have hcm : c ≠ '-' := by
        intro h; subst h; simp [charDigit] at hcdig
      have hcp : c ≠ '+' := by
        intro h; subst h; simp [charDigit] at hcdig
      rw [pyIntSigned, if_neg hcm, if_neg hcp, ← hp,
        parseNatChars_padZeros 3 _ (natToChars_ne_nil _) (natToChars_allDigits _),
        digitsVal_natToChars]
      have hval : ((n.natAbs : Nat) : Int) = n := by omega
      simp [hval]

/-! Maximum lemmas and the freshness of the generated ids. -/

theorem seed_le_foldl_max (t : List Int) (n : Int) : n ≤ t.foldl max n := by
  induction t generalizing n with
  | nil => simp
  | cons m t ih => exact le_trans (le_max_left n m) (ih (max n m))

theorem mem_le_foldl_max (t : List Int) (n x : Int) (h : x ∈ t) : x ≤ t.foldl max n := by
  induction t generalizing n with
  | nil => simp at h
  | cons m t ih =>
    rcases List.mem_cons.mp h with rfl | hx
    · exact le_trans (le_max_right n x) (seed_le_foldl_max t (max n x))
    · exact ih (max n m) hx

theorem le_maxOfList (l : List Int) (x : Int) (h : x ∈ l) : x ≤ maxOfList l := by
  cases l with
  | nil => simp at h
  | cons n ns =>
    rcases List.mem_cons.mp h with rfl | hx
    · exact seed_le_foldl_max ns x
    · exact mem_le_foldl_max ns n x hx

theorem mk_stu_drop3 (cs : List Char) :
    (String.mk ('S' :: 'T' :: 'U' :: cs)).toList.drop 3 = cs := rfl

theorem mk_st_drop2 (cs : List Char) :
    (String.mk ('S' :: 'T' :: cs)).toList.drop 2 = cs := rfl

theorem m_next_cons (s : MStudent) (rest : List MStudent) :
    m_get_next_student_id (s :: rest) =
      String.mk ('S' :: 'T' :: 'U' :: formatInt3
        (if ((s :: rest).filterMap
              (fun t => pyIntChars (t.student_id.toList.drop 3))).isEmpty then (1 : Int)
         else maxOfList ((s :: rest).filterMap
              (fun t => pyIntChars (t.student_id.toList.drop 3))) + 1)) := rfl

theorem m_next_id_fresh_aux (s : MStudent) (rest : List MStudent) (s2 : MStudent)
    (hs2 : s2 ∈ s :: rest) (hid : s2.student_id = m_get_next_student_id (s :: rest)) :
    False := by
  set numbers := (s :: rest).filterMap (fun t => pyIntChars (t.student_id.toList.drop 3))
    with hnumbers
  by_cases hn : numbers.isEmpty
  · have hres : m_get_next_student_id (s :: rest) =
        String.mk ('S' :: 'T' :: 'U' :: formatInt3 1) := by
      rw [m_next_cons, ← hnumbers, if_pos hn]
    have hparse : pyIntChars (s2.student_id.toList.drop 3) = some 1 := by
      rw [hid, hres, mk_stu_drop3]
      exact pyIntChars_formatInt3 1
    have hmem : (1 : Int) ∈ numbers := by
      rw [hnumbers]
      exact List.mem_filterMap.mpr ⟨s2, hs2, hparse⟩
    rw [List.isEmpty_iff] at hn
    rw [hn] at hmem
    simp at hmem
  · have hres : m_get_next_student_id (s :: rest) =
        String.mk ('S' :: 'T' :: 'U' :: formatInt3 (maxOfList numbers + 1)) := by
      rw [m_next_cons, ← hnumbers, if_neg hn]
    have hparse : pyIntChars (s2.student_id.toList.drop 3) = some (maxOfList numbers + 1) := by
      rw [hid, hres, mk_stu_drop3]
      exact pyIntChars_formatInt3 _
    have hmem : maxOfList numbers + 1 ∈ numbers := by
      rw [hnumbers]
      exact List.mem_filterMap.mpr ⟨s2, hs2, hparse⟩
    have := le_maxOfList numbers _ hmem
    omega


/-- C2 counterexample: the claim says nextId never returns an id that was
ever previously assigned, even after deletion.  Adding STU001 and STU002 and
then deleting STU002 leaves a store on which get_next_student_id returns
STU002 again, an id that was present in the store before the deletion. -/
theorem C2_next_id_reuse_counterexample :
    (m_add_student [] true s001).2.2 = [s001] ∧
    (m_add_student [s001] true s002).2.2 = [s001, s002] ∧
    (m_delete_student [s001, s002] true "STU002").2.2 = [s001] ∧
    s002.student_id = "STU002" ∧
    m_get_next_student_id [s001] = "STU002" := by
  decide

/-- C2 (amended): get_next_student_id never collides with an id currently in
the store (the count of the generated id among the stored ids is zero), for
every store; but an id may be re-issued after the record holding the maximal
numeric suffix is deleted, as the counterexample shows. -/
theorem C2_next_id_fresh_for_current_store (students : List MStudent) :
    (students.map (fun s => s.student_id)).count (m_get_next_student_id students) = 0 := by
  rw [List.count_eq_zero]
  intro hmem
  cases students with
  | nil => simp at hmem
  | cons s rest =>
    rcases List.mem_map.mp hmem with ⟨s2, hs2, hid⟩
    exact m_next_id_fresh_aux s rest s2 hs2 hid


/-- C1: the claim says every mutating operation rolls the in-memory set back
to its pre-call state when the persistence save fails.  Evaluating the code
at a failing save shows the opposite for delete, update and bulk delete: each
returns a failure result yet leaves the mutated store in memory (delete and
bulk delete have removed the record, update has applied the mutation), so
memory diverges from the persisted backing.  Only add rolls back. -/
theorem C1_no_rollback_on_save_failure :
    m_delete_student [s001] false "STU001" =
      (false, "Failed to save after deletion", []) ∧
    (m_update_student [s001] false "STU001" [("name", "Zed")] "2026-02-02 09:00:00").1 = false ∧
    (m_update_student [s001] false "STU001" [("name", "Zed")] "2026-02-02 09:00:00").2.2 =
      [{ s001 with name := "Zed", last_updated := "2026-02-02 09:00:00" }] ∧
    m_bulk_delete_students [s001] false ["STU001"] =
      (false, "Failed to save after bulk deletion", []) ∧
    m_add_student [] false s001 = (false, "Failed to save student data", []) := by
  decide

/-- C3: the claim says add fails with a duplicate-id error and leaves the
store unchanged whenever the new record's id is already present.  In the
in-memory manager the add at a duplicate id succeeds and the live set ends up
holding two records with the same id (the persistent manager does perform the
check; the richer variant the spec declares canonical does not). -/
theorem C3_adv_add_duplicate_succeeds :
    (adv_add_student [a001] { a002 with student_id := "ST001" }).1 = true ∧
    (adv_add_student [a001] { a002 with student_id := "ST001" }).2.1 =
      "Student added successfully" ∧
    ((adv_add_student [a001] { a002 with student_id := "ST001" }).2.2.filter
      (fun s => s.student_id == "ST001")).length = 2 := by
  decide

/-- C4: the claim says update rejects unknown field names rather than
silently dropping them.  Updating an existing record with the unknown field
name nickname returns plain success and applies nothing but the last_updated
refresh: the unknown name is silently dropped, no rejection is reported. -/
theorem C4_update_unknown_field_silently_dropped :
    m_update_student [s001] true "STU001" [("nickname", "Bob")] "2026-02-02 09:00:00" =
      (true, "Student updated successfully",
        [{ s001 with last_updated := "2026-02-02 09:00:00" }]) := by
  decide

/-- C6: the claim says the correlation statistic is 0 (never NaN) whenever
either vector has zero variance.  On a two-record store whose performance
values are equal (zero variance) and whose attendance values differ, the
code's np.corrcoef call divides by a zero standard deviation and the result
is NaN, not 0. -/
theorem C6_correlation_nan_on_zero_variance :
    a001.performance = a002.performance ∧
    (adv_correlation [a001, a002]).isNaN = true := by
  refine ⟨by decide, ?_⟩
  simp [adv_correlation, np_corrcoef_01, centered, mean, sqSum, dotSum, a001, a002]

/-- C8 counterexample: the claim says export on an empty store produces
header-only output (the fixed column header).  The source guards the header
write behind a store-nonemptiness test, so the exported file of an empty
store has no lines at all, not the single header line. -/
theorem C8_empty_export_no_header_counterexample :
    (m_export_to_csv []).1 = true ∧
    (m_export_to_csv []).2.2 = [] ∧
    (m_export_to_csv []).2.2 ≠ [exportHeader] := by
  decide

/-- C8 (amended): export on an empty store succeeds with empty output (no
header line), and importing that output back yields success, zero imported
records, an empty error list and a still-empty store. -/
theorem C8_empty_export_import_roundtrip (today now : String) :
    (m_export_to_csv []).1 = true ∧
    (m_export_to_csv []).2.2 = [] ∧
    m_import_from_csv today now [] true (dictReaderRows (m_export_to_csv []).2.2) =
      { ok := true, msg := "Successfully imported 0 students", errors := [], store := [] } := by
  refine ⟨rfl, rfl, ?_⟩
  simp [m_import_from_csv, dictReaderRows, m_export_to_csv, enumFromTwo]
  decide


/-- C7 counterexample: the claim says the trend signal compares the mean
performance of the records enrolled within the last thirty days against the
overall mean, with equality giving stable.  On a two-record in-memory store
where both records enrolled on the reference day (so the recent mean equals
the overall mean and the claimed rule gives stable), the code returns
Improving: it actually compares the last performance entry with the first. -/
theorem C7_adv_trend_counterexample :
    adv_performance_trend [t1, t2] = "Improving" ∧
    claim_trend [(t1.performance, t1.enrollment_date), (t2.performance, t2.enrollment_date)]
      "2026-09-12" = TrendSig.stable ∧
    advTrendWord TrendSig.stable ≠ "Improving" := by
  refine ⟨by decide, ?_, by decide⟩
  have hfil : ([(t1.performance, t1.enrollment_date),
      (t2.performance, t2.enrollment_date)].filter
        (fun r => lexLe "2026-09-12".toList r.2.toList)) =
      [(t1.performance, t1.enrollment_date), (t2.performance, t2.enrollment_date)] := by
    decide
  rw [claim_trend]
  rw [hfil]
  simp [mean, t1, t2, a001, a002]

/-- C7 (amended): the persistent manager computes the trend exactly by the
claimed rule (recent-window mean against overall mean, equality giving
stable) whenever at least one record lies in the recency window; the
in-memory manager instead compares the last performance entry against the
first, as the counterexample shows. -/
theorem C7_manager_trend_matches_claim (students : List MStudent) (cutoff : String)
    (h : students.filter (fun s => lexLe cutoff.toList s.enrollment_date.toList) ≠ []) :
    m_performance_trend students cutoff =
      [trendWord (claim_trend (students.map (fun s => (s.performance, s.enrollment_date)))
        cutoff)] := by
  have hemp : (students.filter
      (fun s => lexLe cutoff.toList s.enrollment_date.toList)).isEmpty = false := by
    cases hc : students.filter (fun s => lexLe cutoff.toList s.enrollment_date.toList) with
    | nil => exact absurd hc h
    | cons a t => rfl
  have hfil : ((students.map (fun s => (s.performance, s.enrollment_date))).filter
      (fun r => lexLe cutoff.toList r.2.toList)) =
      (students.filter (fun s => lexLe cutoff.toList s.enrollment_date.toList)).map
        (fun s => (s.performance, s.enrollment_date)) := by
    rw [List.filter_map]
    rfl
  rw [m_performance_trend, claim_trend, hfil]
  simp only [hemp, Bool.false_eq_true, if_false, List.map_map]
  have hover : mean (List.map ((fun r => r.1) ∘ fun s =>
      ((s : MStudent).performance, s.enrollment_date)) students) =
      mean (students.map (fun s => s.performance)) := rfl
  have hrec : mean (List.map ((fun r => r.1) ∘ fun s =>
      ((s : MStudent).performance, s.enrollment_date))
        (students.filter (fun s => lexLe cutoff.toList s.enrollment_date.toList))) =
      mean ((students.filter (fun s => lexLe cutoff.toList s.enrollment_date.toList)).map
        (fun s => s.performance)) := rfl
  rw [hover, hrec]
  set avg := mean (students.map (fun s => s.performance))
  set ravg := mean ((students.filter
    (fun s => lexLe cutoff.toList s.enrollment_date.toList)).map (fun s => s.performance))
  by_cases h1 : avg < ravg
  · simp [h1, trendWord]
  · by_cases h2 : ravg < avg
    · simp [h1, h2, trendWord]
    · simp [h1, h2, trendWord]

/-- C7 witness: the amended theorem applied to a concrete one-record store
whose record lies in the recency window. -/
theorem C7_manager_trend_witness :
    m_performance_trend [s001] "2026-01-01" =
      [trendWord (claim_trend ([s001].map (fun s => (s.performance, s.enrollment_date)))
        "2026-01-01")] :=
  C7_manager_trend_matches_claim [s001] "2026-01-01" (by decide)


theorem c9_group_name (d : StudentData) :
    (if validate_name d.name then [] else [vmsg .nameF]) =
      (([VField.nameF].filter (fun f => violates f d)).map vmsg) := by
  cases h : validate_name d.name <;> simp [violates, h, List.filter]

theorem c9_group_age (d : StudentData) :
    (match pyIntChars d.age.toList with
     | some a => if validate_age a then [] else [vmsg .ageRange]
     | none => [vmsg .ageParse]) =
      (([VField.ageRange, VField.ageParse].filter (fun f => violates f d)).map vmsg) := by
  cases h : pyIntChars d.age.toList with
  | none => simp only [String.toList] at h; simp [violates, h, List.filter]
  | some a =>
    simp only [String.toList] at h
    cases ha : validate_age a <;> simp [violates, h, ha, List.filter]

theorem c9_group_grade (d : StudentData) :
    (if validate_grade d.grade then [] else [vmsg .gradeF]) =
      (([VField.gradeF].filter (fun f => violates f d)).map vmsg) := by
  cases h : validate_grade d.grade <;> simp [violates, h, List.filter]

theorem c9_group_email (d : StudentData) :
    (if validate_email d.email then [] else [vmsg .emailF]) =
      (([VField.emailF].filter (fun f => violates f d)).map vmsg) := by
  cases h : validate_email d.email <;> simp [violates, h, List.filter]

theorem c9_group_perf (d : StudentData) :
    (match pyFloatChars d.performance.toList with
     | some p => if validate_performance p then [] else [vmsg .perfRange]
     | none => [vmsg .perfParse]) =
      (([VField.perfRange, VField.perfParse].filter (fun f => violates f d)).map vmsg) := by
  cases h : pyFloatChars d.performance.toList with
  | none => simp only [String.toList] at h; simp [violates, h, List.filter]
  | some p =>
    simp only [String.toList] at h
    cases hp : validate_performance p <;> simp [violates, h, hp, List.filter]

theorem c9_group_phone (d : StudentData) :
    (if d.phone.isEmpty || validate_phone d.phone then [] else [vmsg .phoneF]) =
      (([VField.phoneF].filter (fun f => violates f d)).map vmsg) := by
  cases h1 : d.phone.isEmpty <;> cases h2 : validate_phone d.phone <;>
    simp [violates, h1, h2, List.filter]

theorem c9_group_course (d : StudentData) :
    (if !d.course.isEmpty && decide (2 ≤ (trimSpaces d.course.toList).length) then []
     else [vmsg .courseF]) =
      (([VField.courseF].filter (fun f => violates f d)).map vmsg) := by
  have hiff : (!d.course.isEmpty && decide (2 ≤ (trimSpaces d.course.toList).length)) =
      !(d.course.isEmpty || decide ((trimSpaces d.course.toList).length < 2)) := by
    cases h1 : d.course.isEmpty <;>
      cases h2 : decide (2 ≤ (trimSpaces d.course.toList).length) <;>
        simp_all
  rw [hiff]
  cases hv : (d.course.isEmpty || decide ((trimSpaces d.course.toList).length < 2)) <;>
    simp only [String.toList] at hv <;>
      simp [violates, List.filter, String.toList, hv]

/-- C9: the validator evaluates every field rule independently and returns
the union of all violations rather than stopping at the first: for every
record the error list is exactly the messages of the violated rules in rule
order (so a record satisfying all rules yields the empty list, and k
violated rules yield k messages), the nine messages are pairwise distinct
(each message attributable to its rule), and each rule reads only its own
field (records agreeing on a rule's field agree on that rule's verdict). -/
theorem C9_validator_full_union :
    (∀ d, validate_student_data d = (vfields.filter (fun f => violates f d)).map vmsg) ∧
    (vfields.map vmsg).Nodup ∧
    (∀ f d d2, fieldProj f d = fieldProj f d2 → violates f d = violates f d2) := by
  refine ⟨?_, by decide, ?_⟩
  · intro d
    have hdef : validate_student_data d =
        ((((((if validate_name d.name then [] else [vmsg .nameF]) ++
          (match pyIntChars d.age.toList with
           | some a => if validate_age a then [] else [vmsg .ageRange]
           | none => [vmsg .ageParse])) ++
          (if validate_grade d.grade then [] else [vmsg .gradeF])) ++
          (if validate_email d.email then [] else [vmsg .emailF])) ++
          (match pyFloatChars d.performance.toList with
           | some p => if validate_performance p then [] else [vmsg .perfRange]
           | none => [vmsg .perfParse])) ++
          (if d.phone.isEmpty || validate_phone d.phone then [] else [vmsg .phoneF])) ++
          (if !d.course.isEmpty && decide (2 ≤ (trimSpaces d.course.toList).length) then []
           else [vmsg .courseF]) := rfl
    rw [hdef, c9_group_name d, c9_group_age d, c9_group_grade d, c9_group_email d,
      c9_group_perf d, c9_group_phone d, c9_group_course d]
    have hsplit : vfields = [VField.nameF] ++ ([VField.ageRange, VField.ageParse] ++
        ([VField.gradeF] ++ ([VField.emailF] ++ ([VField.perfRange, VField.perfParse] ++
          ([VField.phoneF] ++ [VField.courseF]))))) := rfl
    rw [hsplit]
    simp only [List.filter_append, List.map_append, List.append_assoc]
  · intro f d d2 hp
    cases f <;> simp only [violates, fieldProj] at hp ⊢ <;> rw [hp]

/-- A record satisfying every field rule validates to the empty error list. -/
theorem validate_dGood_ok : validate_student_data dGood = [] := by decide

/-- The three corrupted fields of dBad yield exactly their three messages. -/
theorem validate_dBad_three :
    validate_student_data dBad = [vmsg .ageRange, vmsg .emailF, vmsg .courseF] := by decide

/-- C9 witness: the validator theorem applied at concrete records, the
independence hypothesis discharged at two records agreeing on the email
field. -/
theorem C9_validator_witness :
    validate_student_data dGood = (vfields.filter (fun f => violates f dGood)).map vmsg ∧
    violates VField.emailF dBad = violates VField.emailF dBad2 :=
  ⟨C9_validator_full_union.1 dGood,
    C9_validator_full_union.2.2 VField.emailF dBad dBad2 rfl⟩


theorem mapM_parse_isSome (l : List AStudent)
    (h : ∀ s ∈ l, (pyIntChars (s.student_id.toList.drop 2)).isSome) :
    ∃ vals, l.mapM (fun t => pyIntChars (t.student_id.toList.drop 2)) = some vals := by
  rw [← List.mapM'_eq_mapM]
  induction l with
  | nil => exact ⟨[], rfl⟩
  | cons s rest ih =>
    obtain ⟨v, hv⟩ := Option.isSome_iff_exists.mp (h s (List.mem_cons_self s rest))
    obtain ⟨vals, hvals⟩ := ih (fun x hx => h x (List.mem_cons_of_mem s hx))
    refine ⟨v :: vals, ?_⟩
    simp only [String.toList] at hv hvals
    simp [List.mapM'_cons, hv, hvals]

theorem adv_next_some (st : List AStudent)
    (h : ∀ s ∈ st, (pyIntChars (s.student_id.toList.drop 2)).isSome) :
    ∃ sid, adv_get_next_student_id st = some sid ∧
      (pyIntChars (sid.toList.drop 2)).isSome := by
  cases st with
  | nil => exact ⟨"ST001", rfl, by decide⟩
  | cons s rest =>
    obtain ⟨vals, hvals⟩ := mapM_parse_isSome (s :: rest) h
    refine ⟨String.mk ('S' :: 'T' :: formatInt3 (maxOfList vals + 1)), ?_, ?_⟩
    · show ((s :: rest).mapM (fun t => pyIntChars (t.student_id.toList.drop 2))).map
        (fun l => String.mk ('S' :: 'T' :: formatInt3 (maxOfList l + 1))) = _
      rw [hvals]
      rfl
    · rw [mk_st_drop2, pyIntChars_formatInt3]
      rfl

theorem adv_import_fold (today now : String) (rows : List ARow) :
    ∀ (k : Nat) (store : List AStudent) (count : Nat) (errs : List String),
      (∀ s ∈ store, (pyIntChars (s.student_id.toList.drop 2)).isSome) →
      ((List.enumFrom k rows).foldl (adv_import_step today now) (store, count, errs)).2.1 =
          count + (rows.filter advRowValid).length ∧
      ((List.enumFrom k rows).foldl (adv_import_step today now) (store, count, errs)).2.2 =
          errs ++ c5_rowErrors k rows ∧
      ((List.enumFrom k rows).foldl (adv_import_step today now) (store, count, errs)).1.length =
          store.length + (rows.filter advRowValid).length := by
  induction rows with
  | nil =>
    intro k store count errs hP
    simp [c5_rowErrors]
  | cons r rest ih =>
    intro k store count errs hP
    have henum : List.enumFrom k (r :: rest) = (k, r) :: List.enumFrom (k + 1) rest := rfl
    rw [henum, List.foldl_cons]
    by_cases hval : advRowValid r
    · have hve : (adv_validate_student_data (rowToAData r)).isEmpty = true := hval
      obtain ⟨sid, hsid, hparse⟩ := adv_next_some store hP
      have hstep : adv_import_step today now (store, count, errs) (k, r) =
          (store ++ [mkAStudent sid (rowToAData r) today now], count + 1, errs) := by
        simp [adv_import_step, hve, hsid]
      rw [hstep]
      have hP2 : ∀ s ∈ store ++ [mkAStudent sid (rowToAData r) today now],
          (pyIntChars (s.student_id.toList.drop 2)).isSome := by
        intro s hs
        rcases List.mem_append.mp hs with hs | hs
        · exact hP s hs
        · simp at hs
          subst hs
          exact hparse
      obtain ⟨h1, h2, h3⟩ := ih (k + 1) _ (count + 1) errs hP2
      refine ⟨?_, ?_, ?_⟩
      · rw [h1, List.filter_cons]
        simp [hval]
        omega
      · rw [h2, c5_rowErrors]
        simp [hval]
      · rw [h3, List.filter_cons]
        simp [hval]
        omega
    · have hve : (adv_validate_student_data (rowToAData r)).isEmpty = false := by
        simpa [advRowValid] using hval
      have hstep : adv_import_step today now (store, count, errs) (k, r) =
          (store, count, errs ++ [advRowErrorEntry k r]) := by
        simp [adv_import_step, hve, advRowErrorEntry]
      rw [hstep]
      obtain ⟨h1, h2, h3⟩ := ih (k + 1) store count (errs ++ [advRowErrorEntry k r]) hP
      refine ⟨?_, ?_, ?_⟩
      · rw [h1, List.filter_cons]
        simp [hval]
      · rw [h2, c5_rowErrors]
        simp [hval, List.append_assoc]
      · rw [h3, List.filter_cons]
        simp [hval]

/-- C5: each invalid row of an in-memory CSV import is recorded as a
numbered error entry and skipped without aborting the batch, every valid row
is committed and counted (ids are generated, so no valid row collides), and
in particular the three-row batch whose second row has age 12 commits rows
one and three, reports imported-count 2 and returns exactly one error entry
referencing row 2 and its age violation.  The general part assumes every id
already in the store parses (ill-formed stored ids would make the source id
generator raise inside the per-row guard). -/
theorem C5_import_partial_success :
    (∀ (today now : String) (init : List AStudent) (rows : List ARow),
      (∀ s ∈ init, (pyIntChars (s.student_id.toList.drop 2)).isSome) →
      (adv_import_from_csv today now init rows).ok = true ∧
      (adv_import_from_csv today now init rows).errors = c5_rowErrors 0 rows ∧
      (adv_import_from_csv today now init rows).store.length =
        init.length + (rows.filter advRowValid).length ∧
      (adv_import_from_csv today now init rows).msg =
        "Successfully imported " ++ toString (rows.filter advRowValid).length ++ " students") ∧
    adv_import_from_csv "2026-10-12" "2026-10-12 10:00:00" [] [r1, r2, r3] =
      { ok := true, msg := "Successfully imported 2 students",
        errors := ["Row 2: Age must be between 15 and 70"],
        store := [mkAStudent "ST001" (rowToAData r1) "2026-10-12" "2026-10-12 10:00:00",
                  mkAStudent "ST002" (rowToAData r3) "2026-10-12" "2026-10-12 10:00:00"] } := by
  refine ⟨?_, by decide⟩
  intro today now init rows hP
  obtain ⟨h1, h2, h3⟩ := adv_import_fold today now rows 0 init 0 [] hP
  refine ⟨rfl, ?_, ?_, ?_⟩
  · show ((List.enumFrom 0 rows).foldl (adv_import_step today now) (init, 0, [])).2.2 = _
    rw [h2]
    rfl
  · show ((List.enumFrom 0 rows).foldl (adv_import_step today now) (init, 0, [])).1.length = _
    rw [h3]
  · show "Successfully imported " ++
      toString ((List.enumFrom 0 rows).foldl (adv_import_step today now) (init, 0, [])).2.1 ++
      " students" = _
    rw [h1, Nat.zero_add]

/-- C5 witness: the general import theorem applied to the empty store and a
one-row batch. -/
theorem C5_import_witness :
    (adv_import_from_csv "2026-10-12" "2026-10-12 10:00:00" [] [r2]).ok = true ∧
    (adv_import_from_csv "2026-10-12" "2026-10-12 10:00:00" [] [r2]).errors =
      c5_rowErrors 0 [r2] ∧
    (adv_import_from_csv "2026-10-12" "2026-10-12 10:00:00" [] [r2]).store.length =
      List.length ([] : List AStudent) + ([r2].filter advRowValid).length ∧
    (adv_import_from_csv "2026-10-12" "2026-10-12 10:00:00" [] [r2]).msg =
      "Successfully imported " ++ toString ([r2].filter advRowValid).length ++ " students" :=
  C5_import_partial_success.1 "2026-10-12" "2026-10-12 10:00:00" [] [r2] (by simp)


theorem beq_str_comm (a b : String) : (a == b) = (b == a) := by
  cases h : a == b with
  | true =>
    rw [beq_iff_eq] at h
    subst h
    exact (beq_self_eq_true a).symm
  | false =>
    cases h2 : b == a with
    | false => rfl
    | true =>
      rw [beq_iff_eq] at h2
      subst h2
      rw [beq_self_eq_true] at h
      exact h.symm

theorem any_id_eq_contains (st : List MStudent) (x : String) :
    st.any (fun t => t.student_id == x) = (st.map (fun t => t.student_id)).contains x := by
  induction st with
  | nil => rfl
  | cons s rest ih =>
    show (s.student_id == x || rest.any (fun t => t.student_id == x)) =
      (x == s.student_id || (rest.map (fun t => t.student_id)).contains x)
    rw [ih, beq_str_comm]

theorem c10_acceptedRows_cons (ids : List String) (row : StudentData) (rest : List StudentData) :
    c10_acceptedRows ids (row :: rest) =
      if (validate_student_data row).isEmpty && !(ids.contains row.student_id) then
        row :: c10_acceptedRows (ids ++ [row.student_id]) rest
      else c10_acceptedRows ids rest := rfl

theorem m_import_step_invalid (today now : String) (st : List MStudent × Nat × List String)
    (i : Nat) (row : StudentData) (hve : (validate_student_data row).isEmpty = false) :
    m_import_step today now st (i, row) =
      (st.1, st.2.1, st.2.2 ++ [mRowErrorEntry i row]) := by
  simp only [m_import_step, hve, Bool.not_false, if_true, mRowErrorEntry]

theorem m_import_step_collision (today now : String) (st : List MStudent × Nat × List String)
    (i : Nat) (row : StudentData) (hval : (validate_student_data row).isEmpty = true)
    (hcol : st.1.any
      (fun t => t.student_id == (mStudentFromDict today now row).student_id) = true) :
    m_import_step today now st (i, row) = st := by
  simp only [m_import_step, hval, Bool.not_true, Bool.false_eq_true, if_false, hcol, if_true]

theorem m_import_step_accept (today now : String) (st : List MStudent × Nat × List String)
    (i : Nat) (row : StudentData) (hval : (validate_student_data row).isEmpty = true)
    (hcol : st.1.any
      (fun t => t.student_id == (mStudentFromDict today now row).student_id) = false) :
    m_import_step today now st (i, row) =
      (st.1 ++ [mStudentFromDict today now row], st.2.1 + 1, st.2.2) := by
  simp only [m_import_step, hval, Bool.not_true, Bool.false_eq_true, if_false, hcol]

theorem m_import_fold (today now : String) (rows : List StudentData) :
    ∀ (k : Nat) (store : List MStudent) (count : Nat) (errs : List String),
      ((List.enumFrom k rows).foldl (m_import_step today now) (store, count, errs)).1 =
          store ++ (c10_acceptedRows (store.map (fun s => s.student_id)) rows).map
            (mStudentFromDict today now) ∧
      ((List.enumFrom k rows).foldl (m_import_step today now) (store, count, errs)).2.1 =
          count + (c10_acceptedRows (store.map (fun s => s.student_id)) rows).length ∧
      ((List.enumFrom k rows).foldl (m_import_step today now) (store, count, errs)).2.2 =
          errs ++ c10_rowErrors k rows := by
  induction rows with
  | nil =>
    intro k store count errs
    simp [c10_acceptedRows, c10_rowErrors]
  | cons r rest ih =>
    intro k store count errs
    have henum : List.enumFrom k (r :: rest) = (k, r) :: List.enumFrom (k + 1) rest := rfl
    rw [henum, List.foldl_cons]
    have hids_new : (mStudentFromDict today now r).student_id = r.student_id := rfl
    by_cases hval : (validate_student_data r).isEmpty
    · by_cases hcol :
        store.any (fun t => t.student_id == (mStudentFromDict today now r).student_id)
      · rw [m_import_step_collision today now (store, count, errs) k r hval hcol]
        obtain ⟨h1, h2, h3⟩ := ih (k + 1) store count errs
        have hcon : (store.map (fun s => s.student_id)).contains r.student_id = true := by
          rw [← any_id_eq_contains, ← hids_new]
          exact hcol
        have hacc : c10_acceptedRows (store.map (fun s => s.student_id)) (r :: rest) =
            c10_acceptedRows (store.map (fun s => s.student_id)) rest := by
          rw [c10_acceptedRows_cons]
          rw [if_neg]
          simp only [hval, hcon, Bool.not_true, Bool.and_false, Bool.false_eq_true,
            not_false_eq_true]
        refine ⟨?_, ?_, ?_⟩
        · rw [h1, hacc]
        · rw [h2, hacc]
        · rw [h3]
          rw [show c10_rowErrors k (r :: rest) = c10_rowErrors (k + 1) rest from by
            rw [c10_rowErrors]; simp only [hval, if_true]]
      · have hcolf : store.any
            (fun t => t.student_id == (mStudentFromDict today now r).student_id) = false := by
          simpa using hcol
        rw [m_import_step_accept today now (store, count, errs) k r hval hcolf]
        obtain ⟨h1, h2, h3⟩ := ih (k + 1) (store ++ [mStudentFromDict today now r]) (count + 1) errs
        have hcon : (store.map (fun s => s.student_id)).contains r.student_id = false := by
          rw [← any_id_eq_contains, ← hids_new]
          exact hcolf
        have hids : (store ++ [mStudentFromDict today now r]).map (fun s => s.student_id) =
            store.map (fun s => s.student_id) ++ [r.student_id] := by
          simp only [List.map_append, List.map_cons, List.map_nil, hids_new]
        have hacc : c10_acceptedRows (store.map (fun s => s.student_id)) (r :: rest) =
            r :: c10_acceptedRows (store.map (fun s => s.student_id) ++ [r.student_id]) rest := by
          rw [c10_acceptedRows_cons]
          rw [if_pos]
          rw [hval, hcon]
          rfl
        refine ⟨?_, ?_, ?_⟩
        · rw [h1, hids, hacc]
          simp [List.append_assoc]
        · rw [h2, hids, hacc]
          simp only [List.length_cons]
          omega
        · rw [h3]
          rw [show c10_rowErrors k (r :: rest) = c10_rowErrors (k + 1) rest from by
            rw [c10_rowErrors]; simp only [hval, if_true]]
    · have hve : (validate_student_data r).isEmpty = false := by
        simpa using hval
      rw [m_import_step_invalid today now (store, count, errs) k r hve]
      obtain ⟨h1, h2, h3⟩ := ih (k + 1) store count (errs ++ [mRowErrorEntry k r])
      have hacc : c10_acceptedRows (store.map (fun s => s.student_id)) (r :: rest) =
          c10_acceptedRows (store.map (fun s => s.student_id)) rest := by
        rw [c10_acceptedRows_cons]
        rw [if_neg]
        simp only [hve, Bool.false_and, Bool.false_eq_true, not_false_eq_true]
      have herr : c10_rowErrors k (r :: rest) =
          mRowErrorEntry k r :: c10_rowErrors (k + 1) rest := by
        rw [c10_rowErrors]
        simp only [hve, Bool.false_eq_true, if_false]
      refine ⟨?_, ?_, ?_⟩
      · rw [h1, hacc]
      · rw [h2, hacc]
      · rw [h3, herr]
        simp [List.append_assoc]

/-- C10: in the persistent import, a row that passes validation but whose
student_id collides with an existing record or with a row accepted earlier in
the same batch is silently skipped: the final store appends exactly the
claim-side accepted rows (collisions dropped), the error list holds exactly
one numbered entry per invalid row (no entry for a skipped collision), and
the count reported in the message is the number of accepted rows (a skipped
collision is not counted). -/
theorem C10_import_silent_collision_skip :
    ∀ (today now : String) (init : List MStudent) (saveOk : Bool) (rows : List StudentData),
      (m_import_from_csv today now init saveOk rows).store =
        init ++ (c10_acceptedRows (init.map (fun s => s.student_id)) rows).map
          (mStudentFromDict today now) ∧
      (m_import_from_csv today now init saveOk rows).errors = c10_rowErrors 2 rows ∧
      (m_import_from_csv today now init saveOk rows).ok = saveOk ∧
      (m_import_from_csv today now init saveOk rows).msg =
        (if saveOk then
          "Successfully imported " ++
            toString (c10_acceptedRows (init.map (fun s => s.student_id)) rows).length ++
            " students" ++
            (if (c10_rowErrors 2 rows).isEmpty then ""
             else ". " ++ toString (c10_rowErrors 2 rows).length ++ " rows had errors")
         else "Failed to save imported data") := by
  intro today now init saveOk rows
  obtain ⟨h1, h2, h3⟩ := m_import_fold today now rows 2 init 0 []
  have h2b : ((List.enumFrom 2 rows).foldl (m_import_step today now) (init, 0, [])).2.1 =
      (c10_acceptedRows (init.map (fun s => s.student_id)) rows).length := by
    rw [h2]
    omega
  have h3b : ((List.enumFrom 2 rows).foldl (m_import_step today now) (init, 0, [])).2.2 =
      c10_rowErrors 2 rows := by
    rw [h3]
    rfl
  cases saveOk with
  | true =>
    refine ⟨?_, ?_, rfl, ?_⟩
    · show ((List.enumFrom 2 rows).foldl (m_import_step today now) (init, 0, [])).1 = _
      exact h1
    · show ((List.enumFrom 2 rows).foldl (m_import_step today now) (init, 0, [])).2.2 = _
      exact h3b
    · show "Successfully imported " ++
        toString ((List.enumFrom 2 rows).foldl (m_import_step today now) (init, 0, [])).2.1 ++
        " students" ++
        (if ((List.enumFrom 2 rows).foldl (m_import_step today now) (init, 0, [])).2.2.isEmpty
         then "" else ". " ++
          toString
            ((List.enumFrom 2 rows).foldl (m_import_step today now) (init, 0, [])).2.2.length
          ++ " rows had errors") = _
      rw [h2b, h3b, if_pos rfl]
  | false =>
    refine ⟨?_, ?_, rfl, ?_⟩
    · show ((List.enumFrom 2 rows).foldl (m_import_step today now) (init, 0, [])).1 = _
      exact h1
    · show ((List.enumFrom 2 rows).foldl (m_import_step today now) (init, 0, [])).2.2 = _
      exact h3b
    · rfl


end StudentMgmt
